import Mathlib

/-!
Verification of the segmentation pipeline of
`preprocess_corpora/preprocessing/tok.py`.

The source builds, for each input file, an XML tree
`text > p > s > w` via `lxml.etree`, where `p` elements carry a decimal
paragraph id, `s` elements carry ids of the shape s{i}.{j} and `w`
elements ids of the shape w{i}.{j}.{k}.  We embed the tree as nested
structures, the tokenizer backends as functions from a line to a list of
sentence-candidates, and each builder (`nltk_tokenize`, `nlp_process`) as a
fold of its line loop over the list of input lines.  File reading is
modelled by passing the list of lines; `tree.write(file_out, ...)` by
returning the tree; a raised `click.ClickException` by `Except.error` with
the exception's message.
-/

namespace PreprocessCorpora

/-- A `w` element of the output document: its id attribute, its text content
(the surface form), and the optional `tree` (part-of-speech) and `lem`
(lemma) attributes, which `nltk_tokenize` never sets. -/
structure Word where
  id : String
  text : String
  tree : Option String
  lem : Option String
deriving DecidableEq, Repr

/-- An `s` element: its id attribute and its `w` children in document order. -/
structure Sentence where
  id : String
  words : List Word
deriving DecidableEq, Repr

/-- A `p` element: its id attribute and its `s` children in document order. -/
structure Paragraph where
  id : String
  sentences : List Sentence
deriving DecidableEq, Repr

/-- The children of the root `text` element, in document order. -/
abbrev Tree := List Paragraph

/-- A normalized token record as delivered by the spacy / stanza pipelines:
surface text, part-of-speech tag (`token.tag_` resp. `token['upos']`) and
lemma (`token.lemma_` resp. `token['lemma']`). -/
structure Tok where
  text : String
  tag : String
  lem : String
deriving DecidableEq, Repr

/-- A sentence-candidate: one element of the iteration `for sent in
doc.to_dict()` over a backend document. -/
abbrev Cand := List Tok

/-- The message of a raised `click.ClickException`. -/
abbrev ClickErr := String

/-- Python `line.strip()` with no argument: remove leading and trailing
whitespace.  Defined over the character list so that it reduces
definitionally; `Char.isWhitespace` covers the ASCII whitespace relevant to
line-oriented text input. -/
def strip (s : String) : String :=
  ⟨((s.data.dropWhile Char.isWhitespace).reverse.dropWhile Char.isWhitespace).reverse⟩

/-- The id attribute set via `'s{}.{}'.format(i, j)`. -/
def sid (i j : Nat) : String := "s" ++ toString i ++ "." ++ toString j

/-- The id attribute set via `'w{}.{}.{}'.format(i, j, k)`. -/
def wid (i j k : Nat) : String :=
  "w" ++ toString i ++ "." ++ toString j ++ "." ++ toString k

/-- `etree.SubElement(paragraph, 's')` appends a child to the current
paragraph, which is always the last `p` of the tree; modelled as appending
to the last list entry (no paragraph exists only in unreachable states, in
which case nothing happens). -/
def appendSents : Tree → List Sentence → Tree
  | [], _ => []
  | [p], ss => [⟨p.id, p.sentences ++ ss⟩]
  | p :: q :: ps, ss => p :: appendSents (q :: ps) ss

/-- `etree.SubElement(sentence, 'w')` appends a child to the current
sentence, which is always the last `s` built for the current line. -/
def appendWords : List Sentence → List Word → List Sentence
  | [], _ => []
  | [s], ws => [⟨s.id, s.words ++ ws⟩]
  | s :: t :: ss, ws => s :: appendWords (t :: ss) ws

/-- One iteration of the `for sent in doc.to_dict()` loop of `nlp_process`.
The state is the sentence counter `j`, the `start_new` flag, and the `s`
elements built so far for the current line.  The `stanza_unique` branch and
the spacy branch of the source fill `w{i}.{j}.{k}`, text, `tree` and `lem`
from the two token shapes identically, so on the normalized `Tok` record the
two branches coincide.  Note `k` is `enumerate(sent, start=1)`, restarted
for every candidate, and `start_new = len(sent) != 1` is the merge
safeguard. -/
def candStep (i : Nat) : Nat × Bool × List Sentence → Cand → Nat × Bool × List Sentence
  | (j, startNew, acc), sent =>
    let jAcc := if startNew then (j + 1, acc ++ [⟨sid i (j + 1), []⟩]) else (j, acc)
    let ws : List Word := sent.enum.map fun kt =>
      ⟨wid i jAcc.1 (kt.1 + 1), kt.2.text, some kt.2.tag, some kt.2.lem⟩
    (jAcc.1, sent.length != 1, appendWords jAcc.2 ws)

/-- The `s` elements produced from one non-empty line by `nlp_process`: the
sentence counter `j` starts at 0 and the `start_new` flag at `True` afresh
for every line. -/
def lineSentences (i : Nat) (cands : List Cand) : List Sentence :=
  (cands.foldl (candStep i) (0, true, [])).2.2

/-- The loop state of `nlp_process`: the paragraph counter `i` and the tree
built so far. -/
structure NlpState where
  i : Nat
  paras : Tree
deriving DecidableEq, Repr

/-- The body of the `for line in f.readlines()` loop of `nlp_process`:
`line.strip()`, then either run the backend and append its sentences to the
current paragraph, or (blank line) append a fresh paragraph `i+1`. -/
def nlpLineStep (nlp : String → List Cand) (st : NlpState) (rawLine : String) : NlpState :=
  let line := strip rawLine
  if line ≠ "" then
    ⟨st.i, appendSents st.paras (lineSentences st.i (nlp line))⟩
  else
    ⟨st.i + 1, st.paras ++ [⟨toString (st.i + 1), []⟩]⟩

/-- `nlp_process` of tok.py: start with `i = 1` and an eagerly created first
`p` element, then fold the line loop over the input lines.  The backend
`nlp` stands for the loaded spacy / stanza pipeline. -/
def nlp_process (nlp : String → List Cand) (lines : List String) : Tree :=
  (lines.foldl (nlpLineStep nlp) ⟨1, [⟨"1", []⟩]⟩).paras

/-- The loop state of `nltk_tokenize`: paragraph counter `i`, sentence
counter `j`, and the tree built so far. -/
structure NltkState where
  i : Nat
  j : Nat
  paras : Tree
deriving DecidableEq, Repr

/-- The body of the line loop of `nltk_tokenize`.  `sentTok` and `wordTok`
stand for `nltk.tokenize.sent_tokenize` / `word_tokenize`, applied to the
punkt language and the text.  In the source, `j += 1` stands outside the
`for s in sentences` loop, so every sentence element created for one line
carries the same `j`. -/
def nltkLineStep (sentTok wordTok : String → String → List String) (punkt : String)
    (st : NltkState) (rawLine : String) : NltkState :=
  let line := strip rawLine
  if line ≠ "" then
    let ss : List Sentence := (sentTok punkt line).map fun s =>
      ⟨sid st.i st.j, (wordTok punkt s).enum.map fun kw =>
        ⟨wid st.i st.j (kw.1 + 1), kw.2, none, none⟩⟩
    ⟨st.i, st.j + 1, appendSents st.paras ss⟩
  else
    ⟨st.i + 1, 1, st.paras ++ [⟨toString (st.i + 1), []⟩]⟩

/-- The tree built by `nltk_tokenize` once the language check has passed:
`i = j = 1`, a first `p` element, then the line loop. -/
def nltkBuild (sentTok wordTok : String → String → List String) (punkt : String)
    (lines : List String) : Tree :=
  (lines.foldl (nltkLineStep sentTok wordTok punkt) ⟨1, 1, [⟨"1", []⟩]⟩).paras

/-- `nltk_tokenize` of tok.py.  The mapping `NLTK_LANGUAGES` lives in
`core/constants` (not among the sources) and is passed as a parameter.
`if not punkt_language` is Python truthiness: a missing entry and an entry
mapped to the empty string both raise the `click.ClickException`. -/
def nltk_tokenize (langMap : String → Option String)
    (sentTok wordTok : String → String → List String)
    (language : String) (lines : List String) : Except ClickErr Tree :=
  let punkt := (langMap language).getD ""
  if punkt = "" then
    .error ("Tokenization in NLTK not available for language " ++ language)
  else
    .ok (nltkBuild sentTok wordTok punkt lines)

/-- `spacy_tokenize` of tok.py.  `SPACY_MODELS` is passed as a parameter for
the same reason as `NLTK_LANGUAGES`; `load` stands for
`spacy.load(spacy_model, exclude=["parser"])` followed by
`add_pipe("sentencizer")`, whose `OSError` is modelled as `Except.error`. -/
def spacy_tokenize (spacyModels : String → Option String)
    (load : String → Except Unit (String → List Cand))
    (language : String) (lines : List String) : Except ClickErr Tree :=
  let spacy_model := (spacyModels language).getD ""
  if spacy_model = "" then
    .error ("Tokenization in Spacy not available for language " ++ language)
  else
    match load spacy_model with
    | .error _ =>
      .error ("Spacy model for language " ++ language ++ " not available: " ++
        "please download it first with the command `python -m spacy download " ++
        spacy_model ++ "`")
    | .ok nlp => .ok (nlp_process nlp lines)

/-- `stanza_tokenize` of tok.py.  `downloadOk` models whether
`stanza.download(language)` raises a `ValueError`; `spacyStanzaLoad` the
`spacy_stanza.load_pipeline` call of the try branch, whose `ImportError`
falls back to a native `stanza.Pipeline` (both pipelines feed the same
`nlp_process`). -/
def stanza_tokenize (downloadOk : String → Bool)
    (spacyStanzaLoad : String → Except Unit (String → List Cand))
    (stanzaPipeline : String → String → List Cand)
    (language : String) (lines : List String) : Except ClickErr Tree :=
  if downloadOk language then
    match spacyStanzaLoad language with
    | .ok nlp => .ok (nlp_process nlp lines)
    | .error _ => .ok (nlp_process (stanzaPipeline language) lines)
  else
    .error ("Tokenization in Stanza not available for language " ++ language)

/-- The observable outcome of running the external command in
`uplug_tokenize`: its exit code and its combined stdout/stderr stream
(redirected to `os.devnull` by the source). -/
structure ExtResult where
  exitCode : Int
  output : String
deriving DecidableEq, Repr

/-- The character class accepted unquoted by `shlex.quote` (the ASCII
reading of its character-class pattern: word characters and the punctuation
at-sign, percent, plus, equals, colon, comma, dot, slash, hyphen). -/
def shlexSafeChar (c : Char) : Bool :=
  c.isAlphanum || c = '_' || c = '@' || c = '%' || c = '+' || c = '=' ||
    c = ':' || c = ',' || c = '.' || c = '/' || c = '-'

/-- Python `shlex.quote` (the `\x27` escapes denote the single-quote
character). -/
def shlex_quote (s : String) : String :=
  if s = "" then "\x27\x27"
  else if s.toList.all shlexSafeChar then s
  else "\x27" ++ s.replace "\x27" "\x27\"\x27\"\x27" ++ "\x27"

/-- `uplug_tokenize` of tok.py: format the shell command (the output file is
written by the shell redirection inside the command), run it via
`subprocess.call` — whose return value, the exit status, is discarded, with
stdout/stderr sent to `os.devnull` — and return.  The result records the
command handed to the shell together with the (always successful) outcome of
the Python call. -/
def uplug_tokenize (run : String → ExtResult) (file_in file_out language : String) :
    String × Except ClickErr Unit :=
  let command := "uplug -f pre/basic pre/" ++ language ++ "/basic -in " ++
    shlex_quote file_in ++ " > " ++ shlex_quote file_out
  let _ := run command
  (command, .ok ())

/-- Modelled from the spec: the five named backend-selector constants of
`core/constants` (the module is not among the sources).  The spec fixes
five distinct named backends; the concrete string values are not
observable, only their distinctness matters. -/
def UPLUG : String := "uplug"

/-- Modelled from the spec: see `UPLUG`. -/
def NLTK : String := "nltk"

/-- Modelled from the spec: see `UPLUG`. -/
def SPACY : String := "spacy"

/-- Modelled from the spec: see `UPLUG`. -/
def STANZA : String := "stanza"

/-- Modelled from the spec: see `UPLUG`. -/
def TREETAGGER : String := "treetagger"

/-- The collaborators `tokenize_single` hands to the individual tokenizers:
the shell, the two language mappings, the NLTK tokenizers, the pipeline
loaders, and the contents of `file_in`. -/
structure Env where
  run : String → ExtResult
  nltkLanguages : String → Option String
  sentTok : String → String → List String
  wordTok : String → String → List String
  spacyModels : String → Option String
  spacyLoad : String → Except Unit (String → List Cand)
  stanzaDownloadOk : String → Bool
  spacyStanzaLoad : String → Except Unit (String → List Cand)
  stanzaPipeline : String → String → List Cand
  fileLines : List String

/-- What, if anything, ends up in `file_out`: the external tool writes it
through the shell redirection of `uplug_tokenize`; the in-process builders
write the assembled tree via `etree.ElementTree.write`. -/
inductive FileWrite where
  | external (command : String)
  | xml (t : Tree)
deriving DecidableEq, Repr

/-- `tokenize_single` of tok.py: dispatch on the `tokenizer` string.  The
first component collects the `click.echo` messages; the second is the
outcome — a raised `click.ClickException`, or the output-file write (if
any). -/
def tokenize_single (env : Env) (file_in file_out language tokenizer : String) :
    List String × Except ClickErr (Option FileWrite) :=
  if tokenizer = UPLUG then
    let r := uplug_tokenize env.run file_in file_out language
    (["Using Uplug tokenization"], .ok (some (.external r.1)))
  else if tokenizer = NLTK then
    (["Using NLTK tokenization"],
      (nltk_tokenize env.nltkLanguages env.sentTok env.wordTok language
        env.fileLines).map fun t => some (.xml t))
  else if tokenizer = SPACY then
    (["Using Spacy tokenization"],
      (spacy_tokenize env.spacyModels env.spacyLoad language
        env.fileLines).map fun t => some (.xml t))
  else if tokenizer = STANZA then
    (["Using Stanza tokenization"],
      (stanza_tokenize env.stanzaDownloadOk env.spacyStanzaLoad env.stanzaPipeline
        language env.fileLines).map fun t => some (.xml t))
  else if tokenizer = TREETAGGER then
    (["Using TreeTagger tokenization"], .ok none)
  else
    ([], .ok none)

/-! ### Observations on the output tree -/

/-- The id attributes of the `p` elements, in document order. -/
def paraIds (t : Tree) : List String := t.map Paragraph.id

/-- The id attributes of the `s` elements of one paragraph. -/
def sentIds (p : Paragraph) : List String := p.sentences.map Sentence.id

/-- The surface texts of one paragraph, one list per `s` element. -/
def sentShape (p : Paragraph) : List (List String) :=
  p.sentences.map fun s => s.words.map Word.text

/-- The id attributes of all `w` elements of one paragraph. -/
def wordIds (p : Paragraph) : List String :=
  p.sentences.flatMap fun s => s.words.map Word.id

/-- The decimal strings 1, 2, ..., n. -/
def idsUpTo (n : Nat) : List String := (List.range n).map fun m => toString (m + 1)

/-! ### Concrete backends for the examples of the spec -/

/-- A token record whose tag is a fixed placeholder and whose lemma is the
surface form. -/
def tk (t : String) : Tok := ⟨t, "X", t⟩

/-- A pipeline backend producing the two sentence-candidates of the
end-to-end example for its line. -/
def helloNlp : String → List Cand := fun line =>
  if line = "Hello world. Good bye." then
    [[tk "Hello", tk "world", tk "."], [tk "Good", tk "bye", tk "."]]
  else []

/-- `sent_tokenize` splitting the end-to-end example line in two. -/
def helloSentTok : String → String → List String := fun _ line =>
  if line = "Hello world. Good bye." then ["Hello world.", "Good bye."] else [line]

/-- `word_tokenize` for the two sentences of the end-to-end example. -/
def helloWordTok : String → String → List String := fun _ s =>
  if s = "Hello world." then ["Hello", "world", "."]
  else if s = "Good bye." then ["Good", "bye", "."]
  else [s]

/-- A pipeline backend for the merge-safeguard examples: the line
`Mr Smith left.` yields a one-token candidate followed by a three-token
candidate; the lines `Mr` and `Smith left.` yield them separately. -/
def mrNlp : String → List Cand := fun line =>
  if line = "Mr Smith left." then [[tk "Mr"], [tk "Smith", tk "left", tk "."]]
  else if line = "Mr" then [[tk "Mr"]]
  else if line = "Smith left." then [[tk "Smith", tk "left", tk "."]]
  else []

/-- `sent_tokenize` producing the candidates `Mr` and `Smith left.` for the
merge example line. -/
def mrSentTok : String → String → List String := fun _ line =>
  if line = "Mr Smith left." then ["Mr", "Smith left."] else [line]

/-- `word_tokenize` for the candidates of the merge example. -/
def mrWordTok : String → String → List String := fun _ s =>
  if s = "Smith left." then ["Smith", "left", "."] else [s]

/-- The total number of `s` elements of a tree. -/
def sCount : Tree → Nat
  | [] => 0
  | p :: ps => p.sentences.length + sCount ps

/-! ### Helper lemmas about appending to the last element -/

lemma appendSents_paraIds (ps : Tree) (ss : List Sentence) :
    paraIds (appendSents ps ss) = paraIds ps := by
  induction ps with
  | nil => rfl
  | cons p ps ih =>
    cases ps with
    | nil => rfl
    | cons q qs => simpa [appendSents, paraIds] using ih

lemma appendSents_length (ps : Tree) (ss : List Sentence) :
    (appendSents ps ss).length = ps.length := by
  have h := appendSents_paraIds ps ss
  have := congrArg List.length h
  simpa [paraIds] using this

lemma appendSents_sCount (ps : Tree) (ss : List Sentence) (h : ps ≠ []) :
    sCount (appendSents ps ss) = sCount ps + ss.length := by
  induction ps with
  | nil => exact absurd rfl h
  | cons p ps ih =>
    cases ps with
    | nil => simp [appendSents, sCount]
    | cons q qs =>
      have := ih (by simp)
      simp only [appendSents, sCount] at this ⊢
      omega

lemma appendWords_ids (ss : List Sentence) (ws : List Word) :
    (appendWords ss ws).map Sentence.id = ss.map Sentence.id := by
  induction ss with
  | nil => rfl
  | cons s ss ih =>
    cases ss with
    | nil => rfl
    | cons t ts => simpa [appendWords] using ih

lemma appendWords_ne_nil (ss : List Sentence) (ws : List Word) (h : ss ≠ []) :
    appendWords ss ws ≠ [] := by
  intro hc
  have hids := appendWords_ids ss ws
  rw [hc] at hids
  exact h (List.map_eq_nil_iff.mp hids.symm)

lemma head?_append_left {α : Type} (l l₂ : List α) (h : l ≠ []) :
    (l ++ l₂).head? = l.head? := by
  cases l with
  | nil => exact absurd rfl h
  | cons a as => rfl

lemma idsUpTo_succ (n : Nat) : idsUpTo (n + 1) = idsUpTo n ++ [toString (n + 1)] := by
  simp [idsUpTo, List.range_succ]

/-! ### Invariants threaded through the line loops -/

/-- The loop invariant of `nlp_process`: the paragraph counter is at least
one and the `p` ids so far are exactly 1 .. i. -/
def NlpInv (st : NlpState) : Prop := 1 ≤ st.i ∧ paraIds st.paras = idsUpTo st.i

lemma nlpLineStep_inv (nlp : String → List Cand) (st : NlpState) (line : String)
    (h : NlpInv st) : NlpInv (nlpLineStep nlp st line) := by
  obtain ⟨h1, h2⟩ := h
  by_cases hb : strip line = ""
  · refine ⟨?_, ?_⟩
    · simp only [nlpLineStep, hb, ne_eq, not_true_eq_false, if_false]
      omega
    · simp only [nlpLineStep, hb, ne_eq, not_true_eq_false, if_false]
      simp [paraIds, idsUpTo_succ, ← h2, paraIds]
  · refine ⟨?_, ?_⟩
    · simpa only [nlpLineStep, hb, ne_eq, not_false_eq_true, if_true] using h1
    · simp only [nlpLineStep, hb, ne_eq, not_false_eq_true, if_true]
      simpa [appendSents_paraIds] using h2

lemma nlpFold_inv (nlp : String → List Cand) (lines : List String) :
    ∀ st : NlpState, NlpInv st → NlpInv (lines.foldl (nlpLineStep nlp) st) := by
  induction lines with
  | nil => exact fun st h => h
  | cons l ls ih => exact fun st h => ih _ (nlpLineStep_inv nlp st l h)

/-- The loop invariant of `nltk_tokenize`. -/
def NltkInv (st : NltkState) : Prop := 1 ≤ st.i ∧ paraIds st.paras = idsUpTo st.i

lemma nltkLineStep_inv (sentTok wordTok : String → String → List String)
    (punkt : String) (st : NltkState) (line : String)
    (h : NltkInv st) : NltkInv (nltkLineStep sentTok wordTok punkt st line) := by
  obtain ⟨h1, h2⟩ := h
  by_cases hb : strip line = ""
  · refine ⟨?_, ?_⟩
    · simp only [nltkLineStep, hb, ne_eq, not_true_eq_false, if_false]
      omega
    · simp only [nltkLineStep, hb, ne_eq, not_true_eq_false, if_false]
      simp [paraIds, idsUpTo_succ, ← h2, paraIds]
  · refine ⟨?_, ?_⟩
    · simpa only [nltkLineStep, hb, ne_eq, not_false_eq_true, if_true] using h1
    · simp only [nltkLineStep, hb, ne_eq, not_false_eq_true, if_true]
      simpa [appendSents_paraIds] using h2

lemma nltkFold_inv (sentTok wordTok : String → String → List String)
    (punkt : String) (lines : List String) :
    ∀ st : NltkState, NltkInv st →
      NltkInv (lines.foldl (nltkLineStep sentTok wordTok punkt) st) := by
  induction lines with
  | nil => exact fun st h => h
  | cons l ls ih => exact fun st h => ih _ (nltkLineStep_inv sentTok wordTok punkt st l h)

lemma nlpFold_paraCount (nlp : String → List Cand) (lines : List String) :
    ∀ st : NlpState,
      ((lines.foldl (nlpLineStep nlp) st).paras).length
        = st.paras.length + lines.countP (fun l => strip l == "") := by
  induction lines with
  | nil => intro st; simp
  | cons l ls ih =>
    intro st
    by_cases hb : strip l = ""
    · simp only [List.foldl_cons, List.countP_cons, hb]
      rw [ih]
      simp only [nlpLineStep, hb, ne_eq, not_true_eq_false, if_false]
      simp
      omega
    · simp only [List.foldl_cons, List.countP_cons]
      rw [ih]
      simp only [nlpLineStep, hb, ne_eq, not_false_eq_true, if_true]
      simp [appendSents_length, hb]

lemma nltkFold_paraCount (sentTok wordTok : String → String → List String)
    (punkt : String) (lines : List String) :
    ∀ st : NltkState,
      ((lines.foldl (nltkLineStep sentTok wordTok punkt) st).paras).length
        = st.paras.length + lines.countP (fun l => strip l == "") := by
  induction lines with
  | nil => intro st; simp
  | cons l ls ih =>
    intro st
    by_cases hb : strip l = ""
    · simp only [List.foldl_cons, List.countP_cons, hb]
      rw [ih]
      simp only [nltkLineStep, hb, ne_eq, not_true_eq_false, if_false]
      simp
      omega
    · simp only [List.foldl_cons, List.countP_cons]
      rw [ih]
      simp only [nltkLineStep, hb, ne_eq, not_false_eq_true, if_true]
      simp [appendSents_length, hb]

lemma candFold_head (i : Nat) (cs : List Cand) :
    ∀ (j : Nat) (b : Bool) (acc : List Sentence), acc ≠ [] →
      (((cs.foldl (candStep i) (j, b, acc)).2.2).map Sentence.id).head?
        = (acc.map Sentence.id).head? := by
  induction cs with
  | nil => intro j b acc _; rfl
  | cons c cs ih =>
    intro j b acc h
    simp only [List.foldl_cons]
    cases b with
    | false =>
      have hstep : candStep i (j, false, acc) c
          = (j, c.length != 1, appendWords acc (c.enum.map fun kt =>
              ⟨wid i j (kt.1 + 1), kt.2.text, some kt.2.tag, some kt.2.lem⟩)) := by
        simp [candStep]
      rw [hstep, ih _ _ _ (appendWords_ne_nil _ _ h)]
      rw [appendWords_ids]
    | true =>
      have hstep : candStep i (j, true, acc) c
          = (j + 1, c.length != 1,
              appendWords (acc ++ [⟨sid i (j + 1), []⟩]) (c.enum.map fun kt =>
                ⟨wid i (j + 1) (kt.1 + 1), kt.2.text, some kt.2.tag, some kt.2.lem⟩)) := by
        simp [candStep]
      rw [hstep, ih _ _ _ (appendWords_ne_nil _ _ (by simp))]
      rw [appendWords_ids]
      simp only [List.map_append]
      exact head?_append_left _ _ (by simpa using h)

lemma lineSentences_head (i : Nat) (c : Cand) (cs : List Cand) :
    ((lineSentences i (c :: cs)).map Sentence.id).head? = some (sid i 1) := by
  unfold lineSentences
  simp only [List.foldl_cons]
  have hstep : candStep i (0, true, []) c
      = (1, c.length != 1,
          [⟨sid i 1, c.enum.map fun kt =>
            ⟨wid i 1 (kt.1 + 1), kt.2.text, some kt.2.tag, some kt.2.lem⟩⟩]) := by
    simp [candStep, appendWords]
  rw [hstep, candFold_head i cs 1 (c.length != 1) _ (by simp)]
  rfl

/-! ### The claims -/

/-- C1: the claim says that within any paragraph the sentence ids are
contiguous increasing from 1 with no duplicates, and in particular that one
input line for which the backend produces two sentence-candidates yields
sentences s1.1 and s1.2.  Evaluating the code at exactly that input:
`nltk_tokenize` gives BOTH sentences the id s1.1 — the `j += 1` of the
source sits outside the `for s in sentences` loop, so `j` counts lines, not
sentences — and it reuses the word ids w1.1.1..w1.1.3 in both sentences,
while `nlp_process` does yield s1.1 and s1.2 from the same two candidates. -/
theorem C1_nltk_assigns_duplicate_sentence_ids :
    (nltk_tokenize (fun _ => some "english") helloSentTok helloWordTok "en"
        ["Hello world. Good bye."]).map (fun t => t.map sentIds)
      = .ok [["s1.1", "s1.1"]] ∧
    ["s1.1", "s1.1"] ≠ ["s1.1", "s1.2"] ∧
    (nltk_tokenize (fun _ => some "english") helloSentTok helloWordTok "en"
        ["Hello world. Good bye."]).map (fun t => t.map wordIds)
      = .ok [["w1.1.1", "w1.1.2", "w1.1.3", "w1.1.1", "w1.1.2", "w1.1.3"]] ∧
    (nlp_process helloNlp ["Hello world. Good bye."]).map sentIds
      = [["s1.1", "s1.2"]] :=
  ⟨rfl, by decide, rfl, rfl⟩

/-- C2 counterexample: for the candidate sequence Mr / Smith-left-.
the claim predicts word ids w1.1.1, w1.1.2, w1.1.3, w1.1.4; the code
restarts `enumerate(sent, start=1)` for the merged candidate, so the ids
are w1.1.1, w1.1.1, w1.1.2, w1.1.3. -/
theorem C2_merged_word_ids_counterexample :
    (nlp_process mrNlp ["Mr Smith left."]).map wordIds
      = [["w1.1.1", "w1.1.1", "w1.1.2", "w1.1.3"]] ∧
    ¬ (nlp_process mrNlp ["Mr Smith left."]).map wordIds
      = [["w1.1.1", "w1.1.2", "w1.1.3", "w1.1.4"]] :=
  ⟨rfl, by decide⟩

/-- C2 amended: the merge safeguard yields exactly ONE sentence node s1.1
with the four words Mr, Smith, left, . in order, but the word counter `k`
restarts at 1 for each merged candidate, so the ids are w1.1.1, w1.1.1,
w1.1.2, w1.1.3 (not w1.1.1..w1.1.4). -/
theorem C2_merge_one_sentence_restarted_word_ids :
    nlp_process mrNlp ["Mr Smith left."]
      = [⟨"1", [⟨"s1.1",
          [⟨"w1.1.1", "Mr", some "X", some "Mr"⟩,
           ⟨"w1.1.1", "Smith", some "X", some "Smith"⟩,
           ⟨"w1.1.2", "left", some "X", some "left"⟩,
           ⟨"w1.1.3", ".", some "X", some "."⟩]⟩]⟩] := rfl

/-- C3 counterexample: the claim says every in-process backend applies the
merge safeguard; `nltk_tokenize`, given the candidates Mr and Smith-left-.,
keeps them as two separate `s` elements (the first containing only Mr) —
no merge takes place there. -/
theorem C3_nltk_no_merge_counterexample :
    (nltk_tokenize (fun _ => some "english") mrSentTok mrWordTok "en"
        ["Mr Smith left."]).map (fun t => t.map sentShape)
      = .ok [[["Mr"], ["Smith", "left", "."]]] ∧
    [[["Mr"], ["Smith", "left", "."]]] ≠ [[["Mr", "Smith", "left", "."]]] :=
  ⟨rfl, by decide⟩

/-- C3 amended: only `nlp_process` applies the merge safeguard: after a
candidate with exactly one token the `start_new` flag is cleared, and a step
taken with the flag cleared opens no new `s` element (the ids present stay
exactly the same, the tokens go into the existing last sentence).
`nltk_tokenize` never merges: every non-empty line adds exactly one `s`
element per sentence-candidate, unconditionally. -/
theorem C3_merge_only_in_nlp_process :
    (∀ (i : Nat) (st : Nat × Bool × List Sentence) (c : Cand), c.length = 1 →
      (candStep i st c).2.1 = false) ∧
    (∀ (i j : Nat) (acc : List Sentence) (c : Cand),
      ((candStep i (j, false, acc) c).2.2).map Sentence.id = acc.map Sentence.id) ∧
    (∀ (sentTok wordTok : String → String → List String) (punkt : String)
        (st : NltkState) (rawLine : String), st.paras ≠ [] → strip rawLine ≠ "" →
      sCount (nltkLineStep sentTok wordTok punkt st rawLine).paras
        = sCount st.paras + (sentTok punkt (strip rawLine)).length) := by
  refine ⟨?_, ?_, ?_⟩
  · rintro i ⟨j, b, acc⟩ c h
    simp [candStep, h]
  · intro i j acc c
    simp [candStep, appendWords_ids]
  · intro sentTok wordTok punkt st rawLine hps hline
    simp only [nltkLineStep, hline, ne_eq, not_false_eq_true, if_true]
    rw [appendSents_sCount _ _ hps]
    simp

/-- Witness for C3 amended, at concrete inputs. -/
theorem C3_merge_only_in_nlp_process_witness :
    ((candStep 1 (0, true, []) [tk "Mr"]).2.1 = false) ∧
    (((candStep 1 (1, false, [⟨"s1.1", []⟩]) [tk "a", tk "b"]).2.2).map Sentence.id
      = ([⟨"s1.1", []⟩] : List Sentence).map Sentence.id) ∧
    (sCount (nltkLineStep mrSentTok mrWordTok "english"
        ⟨1, 1, [⟨"1", []⟩]⟩ "Mr Smith left.").paras
      = sCount ([⟨"1", []⟩] : Tree) + (mrSentTok "english" (strip "Mr Smith left.")).length) :=
  ⟨C3_merge_only_in_nlp_process.1 1 (0, true, []) [tk "Mr"] rfl,
   C3_merge_only_in_nlp_process.2.1 1 1 [⟨"s1.1", []⟩] [tk "a", tk "b"],
   C3_merge_only_in_nlp_process.2.2 mrSentTok mrWordTok "english"
     ⟨1, 1, [⟨"1", []⟩]⟩ "Mr Smith left." (by decide) (by decide)⟩

/-- C4 counterexample: a paragraph spanning the two lines Mr and
Smith-left-.: the claim predicts that the open merge continues (one
sentence) and that `j` carries over (otherwise s1.2); the code produces two
`s` elements BOTH with id s1.1 — the counter and the merge flag are reset at
every non-empty line of `nlp_process`. -/
theorem C4_counterexample_state_not_carried :
    (nlp_process mrNlp ["Mr", "Smith left."]).map sentIds = [["s1.1", "s1.1"]] ∧
    ¬ (nlp_process mrNlp ["Mr", "Smith left."]).map sentIds = [["s1.1"]] ∧
    ¬ (nlp_process mrNlp ["Mr", "Smith left."]).map sentIds = [["s1.1", "s1.2"]] :=
  ⟨rfl, by decide, by decide⟩

/-- C4 amended: in `nlp_process` the sentence counter and the merge flag do
NOT carry across lines: they are reinitialized (`j = 0`, `start_new = True`)
for every non-empty line, so the first sentence element opened on any
non-empty line has id s{i}.1 regardless of the previous lines, the line's
elements are appended after the existing ones, and only the paragraph
counter `i` persists. -/
theorem C4_per_line_reset (nlp : String → List Cand) (st : NlpState) (rawLine : String)
    (h : strip rawLine ≠ "") (hc : nlp (strip rawLine) ≠ []) :
    ((lineSentences st.i (nlp (strip rawLine))).map Sentence.id).head? = some (sid st.i 1) ∧
    (nlpLineStep nlp st rawLine).i = st.i ∧
    (nlpLineStep nlp st rawLine).paras
      = appendSents st.paras (lineSentences st.i (nlp (strip rawLine))) := by
  refine ⟨?_, ?_, ?_⟩
  · obtain ⟨c, cs, hcc⟩ := List.exists_cons_of_ne_nil hc
    rw [hcc]
    exact lineSentences_head st.i c cs
  · simp [nlpLineStep, h]
  · simp [nlpLineStep, h]

/-- Witness for C4 amended, at a concrete line and state. -/
theorem C4_per_line_reset_witness :
    ((lineSentences 1 (mrNlp (strip "Smith left."))).map Sentence.id).head? = some (sid 1 1) ∧
    (nlpLineStep mrNlp ⟨1, [⟨"1", []⟩]⟩ "Smith left.").i = 1 ∧
    (nlpLineStep mrNlp ⟨1, [⟨"1", []⟩]⟩ "Smith left.").paras
      = appendSents [⟨"1", []⟩] (lineSentences 1 (mrNlp (strip "Smith left."))) :=
  C4_per_line_reset mrNlp ⟨1, [⟨"1", []⟩]⟩ "Smith left." (by decide) (by decide)

/-- C5: a blank line always overrides the merge safeguard.  For the input
lines Mr, blank, Smith-left-. the output has two paragraphs: paragraph 1
holds a sentence containing only Mr, paragraph 2 starts fresh at s2.1 — the
merge does not cross the blank line.  Moreover a blank line unconditionally
appends a fresh (empty) paragraph i+1, whatever the current state. -/
theorem C5_blank_line_overrides_merge :
    nlp_process mrNlp ["Mr", "", "Smith left."]
      = [⟨"1", [⟨"s1.1", [⟨"w1.1.1", "Mr", some "X", some "Mr"⟩]⟩]⟩,
         ⟨"2", [⟨"s2.1", [⟨"w2.1.1", "Smith", some "X", some "Smith"⟩,
                          ⟨"w2.1.2", "left", some "X", some "left"⟩,
                          ⟨"w2.1.3", ".", some "X", some "."⟩]⟩]⟩] ∧
    (∀ (nlp : String → List Cand) (st : NlpState),
      nlpLineStep nlp st "" = ⟨st.i + 1, st.paras ++ [⟨toString (st.i + 1), []⟩]⟩) :=
  ⟨rfl, fun nlp st => rfl⟩

/-- C6: for every language with no entry in the backend's language/model
mapping, the NLTK and Spacy tokenizers raise the `click.ClickException`
whatever the input is (so before any input is read), and produce no output
tree (so no output file is written). -/
theorem C6_unsupported_language_fails_early
    (langMap spacyModels : String → Option String)
    (sentTok wordTok : String → String → List String)
    (load : String → Except Unit (String → List Cand)) (language : String)
    (h1 : langMap language = none) (h2 : spacyModels language = none) :
    (∀ lines, nltk_tokenize langMap sentTok wordTok language lines
      = .error ("Tokenization in NLTK not available for language " ++ language)) ∧
    (∀ lines, spacy_tokenize spacyModels load language lines
      = .error ("Tokenization in Spacy not available for language " ++ language)) := by
  constructor
  · intro lines
    simp [nltk_tokenize, h1]
  · intro lines
    simp [spacy_tokenize, h2]

/-- Witness for C6, at a concrete language and mappings without an entry. -/
theorem C6_unsupported_language_fails_early_witness :
    nltk_tokenize (fun _ => none) (fun _ l => [l]) (fun _ s => [s]) "xx" ["a"]
      = .error ("Tokenization in NLTK not available for language " ++ "xx") ∧
    spacy_tokenize (fun _ => none) (fun _ => .error ()) "xx" ["a"]
      = .error ("Tokenization in Spacy not available for language " ++ "xx") :=
  ⟨(C6_unsupported_language_fails_early (fun _ => none) (fun _ => none)
      (fun _ l => [l]) (fun _ s => [s]) (fun _ => .error ()) "xx" rfl rfl).1 ["a"],
   (C6_unsupported_language_fails_early (fun _ => none) (fun _ => none)
      (fun _ l => [l]) (fun _ s => [s]) (fun _ => .error ()) "xx" rfl rfl).2 ["a"]⟩

/-- C7: for every input (the empty one included) the trees built by
`nlp_process` and by `nltk_tokenize` contain at least one `p` element, and
the `p` ids are exactly the decimal strings 1, 2, ..., n in order. -/
theorem C7_paragraph_ids_contiguous :
    (∀ (nlp : String → List Cand) (lines : List String),
      ∃ n, 1 ≤ n ∧ paraIds (nlp_process nlp lines) = idsUpTo n) ∧
    (∀ (langMap : String → Option String)
        (sentTok wordTok : String → String → List String)
        (language : String) (lines : List String) (t : Tree),
      nltk_tokenize langMap sentTok wordTok language lines = Except.ok t →
      ∃ n, 1 ≤ n ∧ paraIds t = idsUpTo n) := by
  constructor
  · intro nlp lines
    have h := nlpFold_inv nlp lines ⟨1, [⟨"1", []⟩]⟩ ⟨le_refl 1, by decide⟩
    exact ⟨_, h.1, h.2⟩
  · intro langMap sentTok wordTok language lines t h
    simp only [nltk_tokenize] at h
    by_cases hp : (langMap language).getD "" = ""
    · simp [hp] at h
    · rw [if_neg hp] at h
      obtain rfl : nltkBuild sentTok wordTok ((langMap language).getD "") lines = t :=
        by injection h
      have hinv := nltkFold_inv sentTok wordTok ((langMap language).getD "") lines
        ⟨1, 1, [⟨"1", []⟩]⟩ ⟨le_refl 1, by decide⟩
      exact ⟨_, hinv.1, hinv.2⟩

/-- Witness for C7, at concrete inputs for both builders. -/
theorem C7_paragraph_ids_contiguous_witness :
    (∃ n, 1 ≤ n ∧ paraIds (nlp_process mrNlp ["Mr", "", "Smith left."]) = idsUpTo n) ∧
    (∃ n, 1 ≤ n ∧ paraIds (nltkBuild helloSentTok helloWordTok "english"
      ["Hello world. Good bye."]) = idsUpTo n) :=
  ⟨C7_paragraph_ids_contiguous.1 mrNlp ["Mr", "", "Smith left."],
   C7_paragraph_ids_contiguous.2 (fun _ => some "english") helloSentTok helloWordTok
     "en" ["Hello world. Good bye."]
     (nltkBuild helloSentTok helloWordTok "english" ["Hello world. Good bye."]) rfl⟩

/-- C8: `uplug_tokenize` returns normally whatever the external command's
exit status and output are — its Python-level outcome is always success and
is literally the same value for any two behaviours of the external tool
(streams and status discarded). -/
theorem C8_uplug_silent (run run₂ : String → ExtResult)
    (file_in file_out language : String) :
    (uplug_tokenize run file_in file_out language).2 = Except.ok () ∧
    uplug_tokenize run file_in file_out language
      = uplug_tokenize run₂ file_in file_out language :=
  ⟨rfl, rfl⟩

/-- C9: every blank (after stripping) line appends one `p` element, so the
number of `p` elements is always 1 + the number of blank lines, for both
builders; and concretely, consecutive blank lines and a trailing blank line
each yield an empty paragraph that consumes an index. -/
theorem C9_blank_lines_always_append_paragraph :
    (∀ (nlp : String → List Cand) (lines : List String),
      (nlp_process nlp lines).length = 1 + lines.countP (fun l => strip l == "")) ∧
    (∀ (sentTok wordTok : String → String → List String) (punkt : String)
        (lines : List String),
      (nltkBuild sentTok wordTok punkt lines).length
        = 1 + lines.countP (fun l => strip l == "")) ∧
    (nlp_process (fun _ => [[tk "a"]]) ["a", "", "", ""]).map sentIds
      = [["s1.1"], [], [], []] ∧
    paraIds (nlp_process (fun _ => [[tk "a"]]) ["a", "", "", ""])
      = ["1", "2", "3", "4"] := by
  refine ⟨?_, ?_, rfl, rfl⟩
  · intro nlp lines
    have h := nlpFold_paraCount nlp lines ⟨1, [⟨"1", []⟩]⟩
    simpa [nlp_process] using h
  · intro sentTok wordTok punkt lines
    have h := nltkFold_paraCount sentTok wordTok punkt lines ⟨1, 1, [⟨"1", []⟩]⟩
    simpa [nltkBuild] using h

/-- C10: dispatching `tokenize_single` on a tokenizer value that is none of
the four real backend constants — in particular on `TREETAGGER`, and on any
string outside the five constants — raises nothing and writes no output
file. -/
theorem C10_unknown_backend_silent_noop (env : Env)
    (file_in file_out language tokenizer : String)
    (h : tokenizer = TREETAGGER ∨
      (tokenizer ≠ UPLUG ∧ tokenizer ≠ NLTK ∧ tokenizer ≠ SPACY ∧ tokenizer ≠ STANZA)) :
    (tokenize_single env file_in file_out language tokenizer).2 = Except.ok none := by
  rcases h with h | ⟨h1, h2, h3, h4⟩
  · subst h
    rfl
  · by_cases h5 : tokenizer = TREETAGGER
    · subst h5
      rfl
    · simp [tokenize_single, h1, h2, h3, h4, h5]

/-- A concrete environment for the C10 witness. -/
def envEx : Env :=
  ⟨fun _ => ⟨0, ""⟩, fun _ => none, fun _ l => [l], fun _ s => [s], fun _ => none,
   fun _ => .error (), fun _ => false, fun _ => .error (), fun _ _ => [], []⟩

/-- Witness for C10, at the TreeTagger constant. -/
theorem C10_unknown_backend_silent_noop_witness :
    (tokenize_single envEx "in.txt" "out.xml" "en" TREETAGGER).2 = Except.ok none :=
  C10_unknown_backend_silent_noop envEx "in.txt" "out.xml" "en" TREETAGGER (Or.inl rfl)

end PreprocessCorpora
